import Mathlib

/-!
Shallow embedding of the checkpointing and training code of the
`deep-learning-v2-pytorch` notebooks (`intro-to-pytorch` Parts 5 and 6).

Parameters are modelled as exact rationals; a linear layer is a weight
matrix (list of rows) together with a bias vector.  The `fc_model.Network`
class used by Part 6 (a chain of linear hidden layers, each followed by
ReLU and `Dropout(p=0.5)`, then an output linear layer followed by
`log_softmax`) is modelled from the spec and from the architecture printed
in the notebook outputs, since `fc_model.py` itself is not among the
provided source files.  `load_state_dict` is PyTorch's strict loader: it
rejects a state dict whose keys or parameter shapes do not match the
target model, as documented by the size-mismatch failure reproduced in the
Part 6 notebook.
-/

set_option autoImplicit false
set_option maxRecDepth 4000

namespace DLV2

/-- A fully connected (`nn.Linear`) layer: `weight` is the list of rows of
the weight matrix (one row per output feature), `bias` the bias vector. -/
structure LinearLayer where
  weight : List (List ℚ)
  bias : List ℚ
deriving DecidableEq

/-- PyTorch's `Linear.out_features`: the number of rows of the weight
matrix, equivalently the length of the bias vector. -/
def LinearLayer.out_features (l : LinearLayer) : ℕ :=
  l.bias.length

/-- One entry group of a state dict: the (`weight`, `bias`) tensors of one
linear layer.  Since the keys `hidden_layers.i.weight` / `...bias` /
`output.weight` / `output.bias` are positional, the ordered list of these
pairs is a faithful model of the ordered state dict. -/
abbrev Entry := (List (List ℚ)) × (List ℚ)

/-- An ordered state dict: the per-layer parameter tensors in order
(hidden layers first, output layer last). -/
abbrev StateDict := List Entry

/-- Build a linear layer of the given dimensions, filling the weight
matrix and bias vector from the given value sources. -/
def mkLinear (inF outF : ℕ) (w : ℕ → ℕ → ℚ) (b : ℕ → ℚ) : LinearLayer :=
  { weight := (List.range outF).map fun r => (List.range inF).map (w r),
    bias := (List.range outF).map b }

/-- Source of fresh parameter values used when a model is constructed
(PyTorch draws them pseudo-randomly; we keep the draw abstract as a
function of layer index, row and column). -/
structure ParamInit where
  w : ℕ → ℕ → ℕ → ℚ
  b : ℕ → ℕ → ℚ

/-- Modelled from the spec: the `fc_model.Network` module, a `ModuleList`
of hidden linear layers, one output linear layer, and a dropout module
with drop probability `drop_p` (the notebook always uses the default
`0.5`); `training` is the module's train/eval mode flag (`True` on
construction). -/
structure Network where
  hidden_layers : List LinearLayer
  output : LinearLayer
  drop_p : ℚ
  training : Bool
deriving DecidableEq

/-- Chain of freshly filled hidden layers: the first maps `d` to the first
hidden width, each later one maps the previous width to the next. -/
def buildHidden (ini : ParamInit) : ℕ → ℕ → List ℕ → List LinearLayer
  | _, _, [] => []
  | idx, d, h :: hs =>
    mkLinear d h (fun r c => ini.w idx r c) (fun r => ini.b idx r) ::
      buildHidden ini (idx + 1) h hs

/-- Last element of `d :: hs`: the input dimension of the output layer. -/
def lastDim (d : ℕ) : List ℕ → ℕ
  | [] => d
  | h :: hs => lastDim h hs

/-- Modelled from the spec: `fc_model.Network(input_size, output_size,
hidden_layers)` builds a fresh, randomly filled parameter set whose shapes
are determined by the dimensions, with dropout probability `0.5` and in
training mode.  (The real constructor requires a nonempty hidden list;
theorems about it carry that hypothesis.) -/
def Network.construct (input_size output_size : ℕ) (hidden : List ℕ)
    (ini : ParamInit) : Network :=
  { hidden_layers := buildHidden ini 0 input_size hidden,
    output := mkLinear (lastDim input_size hidden) output_size
      (fun r c => ini.w hidden.length r c) (fun r => ini.b hidden.length r),
    drop_p := 1 / 2,
    training := true }

/-- The model's `state_dict()`: the ordered parameter tensors of the
hidden layers followed by those of the output layer. -/
def Network.state_dict (m : Network) : StateDict :=
  m.hidden_layers.map (fun l => (l.weight, l.bias)) ++
    [(m.output.weight, m.output.bias)]

/-- The shape of one state-dict entry: the row lengths of the weight
matrix and the length of the bias vector. -/
def entryShape (e : Entry) : List ℕ × ℕ :=
  (e.1.map List.length, e.2.length)

/-- The shapes of all entries of a state dict. -/
def sdShapes (sd : StateDict) : List (List ℕ × ℕ) :=
  sd.map entryShape

/-- Overwrite the parameters of `m` positionally with the entries of
`sd` (all but the last entry become the hidden layers, the last becomes
the output layer); mode and dropout probability are untouched. -/
def Network.withParams (m : Network) (sd : StateDict) : Network :=
  { m with
    hidden_layers := sd.dropLast.map (fun e => { weight := e.1, bias := e.2 }),
    output := (sd.getLast?).elim m.output (fun e => { weight := e.1, bias := e.2 }) }

/-- PyTorch's strict `model.load_state_dict(sd)`: fails if the keys do not
match, fails with a size-mismatch error if any stored parameter shape
differs from the model's, and otherwise copies every stored value into
the model. -/
def Network.load_state_dict (m : Network) (sd : StateDict) : Except String Network :=
  if sd.length ≠ m.state_dict.length then
    Except.error "missing or unexpected keys in state_dict"
  else if sdShapes sd ≠ sdShapes m.state_dict then
    Except.error "size mismatch for parameters"
  else
    Except.ok (m.withParams sd)

/-- A checkpoint record: input dimension, output dimension, the list of
hidden-layer widths, and the parameter mapping. -/
structure Checkpoint where
  input_size : ℕ
  output_size : ℕ
  hidden_layers : List ℕ
  state_dict : StateDict
deriving DecidableEq

/-- The hidden-layer widths of a model: `[each.out_features for each in
model.hidden_layers]`. -/
def Network.hiddenSizes (m : Network) : List ℕ :=
  m.hidden_layers.map LinearLayer.out_features

/-- The checkpoint dictionary built in the Part 6 notebook: the literal
dimensions plus the model's current `state_dict()` taken verbatim. -/
def saveCheckpoint (input_size output_size : ℕ) (m : Network) : Checkpoint :=
  { input_size := input_size,
    output_size := output_size,
    hidden_layers := m.hiddenSizes,
    state_dict := m.state_dict }

/-- The notebook's `load_checkpoint`: construct a fresh model from the
stored dimensions, then load the stored parameter values into it. -/
def load_checkpoint (c : Checkpoint) (ini : ParamInit) : Except String Network :=
  (Network.construct c.input_size c.output_size c.hidden_layers ini).load_state_dict
    c.state_dict

/-- Shape consistency of one linear layer with dimensions `inF → outF`. -/
def LinearLayer.wfB (l : LinearLayer) (inF outF : ℕ) : Bool :=
  l.bias.length = outF && l.weight.length = outF &&
    l.weight.all (fun r => r.length = inF)

/-- Shape consistency of a chain of hidden layers starting at input
dimension `d`. -/
def layersWF : ℕ → List LinearLayer → Bool
  | _, [] => true
  | d, l :: ls => l.wfB d l.out_features && layersWF l.out_features ls

/-- Shape consistency of a whole network with the given input and output
dimensions. -/
def Network.wf (input_size output_size : ℕ) (m : Network) : Bool :=
  layersWF input_size m.hidden_layers &&
    m.output.wfB (lastDim input_size m.hiddenSizes) output_size

/-- The shape of a linear layer of dimensions `inF → outF`. -/
def layerShape (inF outF : ℕ) : List ℕ × ℕ :=
  (List.replicate outF inF, outF)

/-- The state-dict shapes determined by the dimensions alone: the hidden
chain followed by the output layer. -/
def shapesOfDims (input_size output_size : ℕ) : List ℕ → List (List ℕ × ℕ)
  | [] => [layerShape input_size output_size]
  | h :: hs => layerShape input_size h :: shapesOfDims h output_size hs

/-! Forward pass of `fc_model.Network`: for each hidden layer
`x = dropout(relu(layer(x)))`, then `log_softmax(output(x))`.  During
training PyTorch's inverted dropout zeroes each unit independently with
probability `p` and scales kept units by `1/(1-p)`; we make the random
keep-mask an explicit argument (one mask per hidden layer).  In
evaluation mode dropout is the identity. -/

/-- Dot product of two rational vectors. -/
def dotQ (xs ys : List ℚ) : ℚ :=
  ((xs.zip ys).map (fun p => p.1 * p.2)).sum

/-- Apply a linear layer to an input vector. -/
def LinearLayer.apply (l : LinearLayer) (x : List ℚ) : List ℚ :=
  (l.weight.zip l.bias).map (fun p => dotQ p.1 x + p.2)

/-- Componentwise ReLU. -/
def reluQ (x : List ℚ) : List ℚ :=
  x.map (fun v => max v 0)

/-- Inverted dropout with drop probability `p` and explicit keep-mask:
kept units are scaled by `1/(1-p)`, dropped units become `0`. -/
def dropoutQ (p : ℚ) (mask : List Bool) (x : List ℚ) : List ℚ :=
  (x.zip mask).map (fun q => if q.2 then q.1 / (1 - p) else 0)

/-- Pass through the hidden chain: ReLU after each linear layer, then
dropout when in training mode. -/
def hiddenForward (p : ℚ) (training : Bool) :
    List LinearLayer → List (List Bool) → List ℚ → List ℚ
  | [], _, x => x
  | l :: ls, masks, x =>
    let a := reluQ (l.apply x)
    let d := if training then dropoutQ p (masks.headD []) a else a
    hiddenForward p training ls masks.tail d

/-- The scores entering `log_softmax`: hidden chain then output layer. -/
def Network.logits (m : Network) (masks : List (List Bool)) (x : List ℚ) : List ℚ :=
  m.output.apply (hiddenForward m.drop_p m.training m.hidden_layers masks x)

/-- The `F.log_softmax` applied by the forward pass (over the reals, as
it involves `exp` and `log`). -/
noncomputable def logSoftmax (x : List ℝ) : List ℝ :=
  x.map (fun v => v - Real.log ((x.map Real.exp).sum))

/-- The full forward pass (the model's prediction) on one input vector,
given the dropout keep-masks consumed in training mode. -/
noncomputable def Network.predict (m : Network) (masks : List (List Bool))
    (x : List ℚ) : List ℝ :=
  logSoftmax ((m.logits masks x).map (fun q => (q : ℝ)))

/-- The model's `eval()` method: switch to evaluation mode. -/
def Network.evalMode (m : Network) : Network :=
  { m with training := false }

/-! Training loop of the Part 4/5 notebooks.  The model parameters and
their stored gradients form the mutable training state; the forward
computation, the loss criterion and the library's autograd facility are
third-party and kept abstract as function parameters.  Each primitive
step appends an event to an execution trace so the order of operations
performed by the loop is observable. -/

/-- One mini-batch: an image batch (rows of pixel values) and its labels. -/
abbrev Batch := (List (List ℚ)) × (List ℕ)

/-- Output of a forward pass on a batch: one score row per image. -/
abbrev NetOutput := List (List ℚ)

/-- The learnable parameters, in state-dict order. -/
abbrev Params := StateDict

/-- Combine two structurally equal parameter sets entrywise. -/
def entryZipWith (f : ℚ → ℚ → ℚ) (a b : Entry) : Entry :=
  ((a.1.zip b.1).map (fun p => (p.1.zip p.2).map (fun q => f q.1 q.2)),
   (a.2.zip b.2).map (fun q => f q.1 q.2))

/-- Pointwise combination of two parameter sets. -/
def paramsZipWith (f : ℚ → ℚ → ℚ) (ps qs : Params) : Params :=
  (ps.zip qs).map (fun p => entryZipWith f p.1 p.2)

/-- Pointwise map over a parameter set. -/
def entryMap (f : ℚ → ℚ) (a : Entry) : Entry :=
  (a.1.map (fun r => r.map f), a.2.map f)

/-- Map a function over every parameter value. -/
def paramsMap (f : ℚ → ℚ) (ps : Params) : Params :=
  ps.map (entryMap f)

/-- A zero gradient set of the same shape as the given parameters. -/
def zerosLike (ps : Params) : Params :=
  paramsMap (fun _ => 0) ps

/-- Gradient accumulation: PyTorch's `backward` adds the new gradients to
the stored ones. -/
def paramsAdd (ps qs : Params) : Params :=
  paramsZipWith (fun a b => a + b) ps qs

/-- The SGD update applied by `optimizer.step()`:
`param := param - lr * grad`. -/
def sgdUpdate (lr : ℚ) (ps gs : Params) : Params :=
  paramsZipWith (fun p g => p - lr * g) ps gs

/-- The mutable training state: current parameter values and the
gradients stored alongside them. -/
structure TrainState where
  params : Params
  grads : Params
deriving DecidableEq

/-- The observable operations of the training loop. -/
inductive Event where
  | zeroGrad
  | forwardPass
  | lossCompute
  | backwardPass
  | optStep
deriving DecidableEq

/-- Training state instrumented with the trace of operations performed. -/
structure Traced where
  st : TrainState
  trace : List Event

/-- The loop's `optimizer.zero_grad()`: clear the stored gradients. -/
def zeroGradOp (t : Traced) : Traced :=
  { st := { t.st with grads := zerosLike t.st.params },
    trace := t.trace ++ [Event.zeroGrad] }

/-- The loop's `model(images)`: a pure computation from the current
parameters; the training state is untouched. -/
def forwardOp (fwd : Params → Batch → NetOutput) (b : Batch) (t : Traced) :
    NetOutput × Traced :=
  (fwd t.st.params b, { t with trace := t.trace ++ [Event.forwardPass] })

/-- The loop's `criterion(output, labels)`: a pure scalar computation;
the training state is untouched. -/
def lossOp (crit : NetOutput → Batch → ℚ) (out : NetOutput) (b : Batch)
    (t : Traced) : ℚ × Traced :=
  (crit out b, { t with trace := t.trace ++ [Event.lossCompute] })

/-- The loop's `loss.backward()`: the library's autograd facility `g`
yields the gradients of the loss at the current parameters, and they are
accumulated into the stored gradients; the parameters themselves are
untouched. -/
def backwardOp (g : Params → Batch → Params) (b : Batch) (t : Traced) : Traced :=
  { st := { t.st with grads := paramsAdd t.st.grads (g t.st.params b) },
    trace := t.trace ++ [Event.backwardPass] }

/-- The loop's `optimizer.step()`: apply the SGD update to the
parameters using the stored gradients. -/
def optStepOp (lr : ℚ) (t : Traced) : Traced :=
  { st := { t.st with params := sgdUpdate lr t.st.params t.st.grads },
    trace := t.trace ++ [Event.optStep] }

/-- Body of the training loop for one mini-batch, exactly as written in
the notebooks: `zero_grad`, forward, loss, `backward`, `step`; the scalar
loss is returned for the running-loss accumulation. -/
def trainBatchStep (fwd : Params → Batch → NetOutput)
    (crit : NetOutput → Batch → ℚ) (g : Params → Batch → Params) (lr : ℚ)
    (b : Batch) (t : Traced) : Traced × ℚ :=
  let t1 := zeroGradOp t
  let p := forwardOp fwd b t1
  let q := lossOp crit p.1 b p.2
  let t4 := backwardOp g b q.2
  let t5 := optStepOp lr t4
  (t5, q.1)

/-- One epoch: iterate the batch body over all mini-batches, accumulating
the running loss. -/
def trainEpoch (fwd : Params → Batch → NetOutput)
    (crit : NetOutput → Batch → ℚ) (g : Params → Batch → Params) (lr : ℚ) :
    List Batch → Traced → ℚ → Traced × ℚ
  | [], t, rl => (t, rl)
  | b :: bs, t, rl =>
    let r := trainBatchStep fwd crit g lr b t
    trainEpoch fwd crit g lr bs r.1 (rl + r.2)

/-- The whole loop: a fixed number of epochs, each a full pass over the
mini-batches; the per-epoch running losses are collected. -/
def trainLoop (fwd : Params → Batch → NetOutput)
    (crit : NetOutput → Batch → ℚ) (g : Params → Batch → Params) (lr : ℚ) :
    ℕ → List Batch → Traced → Traced × List ℚ
  | 0, _, t => (t, [])
  | e + 1, bs, t =>
    let r := trainEpoch fwd crit g lr bs t 0
    let s := trainLoop fwd crit g lr e bs r.1
    (s.1, r.2 :: s.2)

/-- The canonical event sequence of one mini-batch. -/
def batchTrace : List Event :=
  [Event.zeroGrad, Event.forwardPass, Event.lossCompute, Event.backwardPass,
   Event.optStep]

/-! Validation-accuracy accumulation of the Part 5 notebook: per batch,
`equals` is the vector of per-image correctness flags, `accuracy` sums the
per-batch means `torch.mean(equals)`, and the reported figure is
`accuracy * 100 / len(testloader)`. -/

/-- The per-batch accuracy `torch.mean(equals.type(FloatTensor))`. -/
def batchMean (eq : List Bool) : ℚ :=
  ((eq.count true : ℕ) : ℚ) / eq.length

/-- The test accuracy reported each epoch: the accumulated per-batch
means divided by the number of test batches, as a percentage. -/
def reportedTestAccuracy (eqs : List (List Bool)) : ℚ :=
  ((eqs.map batchMean).sum) * 100 / eqs.length

/-- The true fraction of correctly classified test images (as a
percentage): total correct over total image count. -/
def overallTestAccuracy (eqs : List (List Bool)) : ℚ :=
  ((eqs.map (fun e => ((e.count true : ℕ) : ℚ))).sum) * 100 /
    ((eqs.map (fun e => ((e.length : ℕ) : ℚ))).sum)

/-- The per-batch correctness profile of a 10000-image test set served in
batches of 64 (156 full batches and one final batch of 16) in which every
image of the final batch is misclassified and all others are correct. -/
def unevenProfile : List (List Bool) :=
  List.replicate 156 (List.replicate 64 true) ++ [List.replicate 16 false]

/-! Device handling of the Part 5 notebook: the device is selected with a
CPU fallback, but the loop moves every batch with unconditional
`.cuda()` calls, which raise when CUDA is unavailable. -/

/-- A compute device. -/
inductive Device where
  | cuda
  | cpu
deriving DecidableEq

/-- The notebook's `torch.device("cuda:0" if torch.cuda.is_available()
else "cpu")`. -/
def selectDevice (cudaAvailable : Bool) : Device :=
  if cudaAvailable then Device.cuda else Device.cpu

/-- An unconditional `.cuda()` call: raises when CUDA is unavailable. -/
def tensorToCuda (cudaAvailable : Bool) : Except String Unit :=
  if cudaAvailable then Except.ok () else
    Except.error "Torch not compiled with CUDA enabled"

/-- The Part 5 training epoch: each iteration first moves the batch with
`images.cuda(), labels.cuda()` and then runs the batch body. -/
def trainEpochDevice (fwd : Params → Batch → NetOutput)
    (crit : NetOutput → Batch → ℚ) (g : Params → Batch → Params) (lr : ℚ)
    (cudaAvailable : Bool) : List Batch → Traced → Except String Traced
  | [], t => Except.ok t
  | b :: bs, t =>
    match tensorToCuda cudaAvailable with
    | Except.error e => Except.error e
    | Except.ok _ =>
      trainEpochDevice fwd crit g lr cudaAvailable bs
        (trainBatchStep fwd crit g lr b t).1

/-! Shape lemmas relating models, well-formedness and dimension lists. -/

theorem entryShape_mkLinear (inF outF : ℕ) (w : ℕ → ℕ → ℚ) (b : ℕ → ℚ) :
    entryShape ((mkLinear inF outF w b).weight, (mkLinear inF outF w b).bias)
      = layerShape inF outF := by
  simp [entryShape, mkLinear, layerShape, List.map_map, Function.comp_def]

theorem lastDim_cons (d h : ℕ) (hs : List ℕ) :
    lastDim d (h :: hs) = lastDim h hs := rfl

theorem shapes_construct_aux (ini : ParamInit) (o : ℕ) :
    ∀ (hs : List ℕ) (idx d : ℕ) (outL : LinearLayer),
      entryShape (outL.weight, outL.bias) = layerShape (lastDim d hs) o →
      sdShapes ((buildHidden ini idx d hs).map (fun l => (l.weight, l.bias)) ++
          [(outL.weight, outL.bias)])
        = shapesOfDims d o hs := by
  intro hs
  induction hs with
  | nil =>
    intro idx d outL hout
    simp [buildHidden, sdShapes, shapesOfDims]
    simpa [lastDim] using hout
  | cons h hs ih =>
    intro idx d outL hout
    rw [lastDim_cons] at hout
    simp only [buildHidden, List.map_cons, List.cons_append, sdShapes,
      shapesOfDims]
    rw [← sdShapes]
    rw [ih (idx + 1) h outL hout]
    simp [entryShape_mkLinear]

theorem sdShapes_construct (i o : ℕ) (H : List ℕ) (ini : ParamInit) :
    sdShapes (Network.construct i o H ini).state_dict = shapesOfDims i o H := by
  exact shapes_construct_aux ini o H 0 i _ (entryShape_mkLinear _ _ _ _)

theorem entryShape_of_wfB {l : LinearLayer} {inF outF : ℕ}
    (h : l.wfB inF outF = true) :
    entryShape (l.weight, l.bias) = layerShape inF outF := by
  simp only [LinearLayer.wfB, Bool.and_eq_true, List.all_eq_true,
    decide_eq_true_eq] at h
  obtain ⟨⟨hb, hw⟩, hall⟩ := h
  simp only [entryShape, layerShape, hb, Prod.mk.injEq, and_true]
  refine List.eq_replicate_iff.2 ⟨by simp [hw], ?_⟩
  intro b hbmem
  obtain ⟨r, hr, rfl⟩ := List.mem_map.1 hbmem
  exact hall r hr

theorem shapes_wf_aux (o : ℕ) :
    ∀ (ls : List LinearLayer) (d : ℕ) (outL : LinearLayer),
      layersWF d ls = true →
      outL.wfB (lastDim d (ls.map LinearLayer.out_features)) o = true →
      sdShapes (ls.map (fun l => (l.weight, l.bias)) ++
          [(outL.weight, outL.bias)])
        = shapesOfDims d o (ls.map LinearLayer.out_features) := by
  intro ls
  induction ls with
  | nil =>
    intro d outL _ hout
    simp only [List.map_nil, List.nil_append, sdShapes, List.map_cons,
      List.map_nil, shapesOfDims]
    simpa [lastDim] using entryShape_of_wfB hout
  | cons l ls ih =>
    intro d outL hwf hout
    simp only [layersWF, Bool.and_eq_true] at hwf
    rw [List.map_cons, lastDim_cons] at hout
    simp only [List.map_cons, List.cons_append, sdShapes, shapesOfDims]
    rw [← sdShapes, ih l.out_features outL hwf.2 hout]
    simp [entryShape_of_wfB hwf.1]

theorem sdShapes_wf {i o : ℕ} {m : Network} (h : m.wf i o = true) :
    sdShapes m.state_dict = shapesOfDims i o m.hiddenSizes := by
  simp only [Network.wf, Bool.and_eq_true] at h
  exact shapes_wf_aux o m.hidden_layers i m.output h.1 h.2

theorem shapesOfDims_length (o : ℕ) :
    ∀ (H : List ℕ) (i : ℕ), (shapesOfDims i o H).length = H.length + 1 := by
  intro H
  induction H with
  | nil => intro i; rfl
  | cons h hs ih => intro i; simp [shapesOfDims, ih h]

theorem shapesOfDims_inj (o : ℕ) :
    ∀ (H H' : List ℕ) (i : ℕ),
      shapesOfDims i o H = shapesOfDims i o H' → H = H' := by
  intro H
  induction H with
  | nil =>
    intro H' i h
    cases H' with
    | nil => rfl
    | cons a' as' =>
      exfalso
      have hlen := congrArg List.length h
      rw [shapesOfDims_length, shapesOfDims_length] at hlen
      simp at hlen
  | cons a as ih =>
    intro H' i h
    cases H' with
    | nil =>
      exfalso
      have hlen := congrArg List.length h
      rw [shapesOfDims_length, shapesOfDims_length] at hlen
      simp at hlen
    | cons a' as' =>
      simp only [shapesOfDims, layerShape, List.cons.injEq, Prod.mk.injEq] at h
      obtain ⟨⟨_, ha⟩, htail⟩ := h
      subst ha
      rw [ih as' a htail]

theorem load_state_dict_isOk (m : Network) (sd : StateDict) :
    (m.load_state_dict sd).isOk = true ↔ sdShapes sd = sdShapes m.state_dict := by
  constructor
  · intro h
    unfold Network.load_state_dict at h
    split at h
    · simp [Except.isOk, Except.toBool] at h
    · split at h
      · simp [Except.isOk, Except.toBool] at h
      · next h2 => exact not_not.mp h2
  · intro h
    have hlen : sd.length = m.state_dict.length := by
      simpa [sdShapes] using congrArg List.length h
    unfold Network.load_state_dict
    simp [hlen, h, Except.isOk, Except.toBool]

/-- C1: for a saved checkpoint with stored hidden widths `H`, loading its
stored parameter values into a model constructed with hidden widths `H'`
succeeds exactly when `H' = H`; any differing widths fail with a
shape-mismatch error rather than silently producing incorrect results. -/
theorem checkpoint_width_mismatch (i o : ℕ) (H' : List ℕ) (m : Network)
    (ini : ParamInit) (hm : m.wf i o = true) (_hH : m.hidden_layers ≠ [])
    (_hH' : H' ≠ []) :
    ((Network.construct i o H' ini).load_state_dict
        (saveCheckpoint i o m).state_dict).isOk = true ↔ H' = m.hiddenSizes := by
  have hsave : (saveCheckpoint i o m).state_dict = m.state_dict := rfl
  rw [hsave, load_state_dict_isOk, sdShapes_wf hm, sdShapes_construct]
  constructor
  · intro h
    exact (shapesOfDims_inj o m.hiddenSizes H' i h).symm
  · intro h
    rw [h]

/-! Concrete model used by the closed witnesses: one hidden layer of
width 1 on a 1-dimensional input, 2 output classes. -/

/-- A concrete hidden layer (1 input feature, 1 output feature). -/
def demoLayer : LinearLayer := { weight := [[1]], bias := [0] }

/-- A concrete output layer (1 input feature, 2 output features). -/
def demoOut : LinearLayer := { weight := [[1], [0]], bias := [0, 0] }

/-- A concrete network with hidden widths `[1]` on input dimension 1 and
output dimension 2, freshly constructed (training mode, dropout 0.5). -/
def demoNet : Network :=
  { hidden_layers := [demoLayer], output := demoOut, drop_p := 1 / 2,
    training := true }

/-- A concrete source of fresh parameter values. -/
def zeroInit : ParamInit := { w := fun _ _ _ => 0, b := fun _ _ => 0 }

/-- Witness for C1 at the concrete model: mismatched hidden widths `[2]`
against stored widths `[1]`. -/
theorem checkpoint_width_mismatch_witness :
    demoNet.wf 1 2 = true ∧ demoNet.hidden_layers ≠ [] ∧ ([2] : List ℕ) ≠ [] ∧
      (((Network.construct 1 2 [2] zeroInit).load_state_dict
          (saveCheckpoint 1 2 demoNet).state_dict).isOk = true ↔
        [2] = demoNet.hiddenSizes) :=
  ⟨by decide, by decide, by decide,
    checkpoint_width_mismatch 1 2 [2] demoNet zeroInit (by decide) (by decide)
      (by decide)⟩

/-! Round-trip and reconstruction lemmas. -/

theorem hiddenForward_evalMode :
    ∀ (ls : List LinearLayer) (p p' : ℚ) (masks masks' : List (List Bool))
      (x : List ℚ),
      hiddenForward p false ls masks x = hiddenForward p' false ls masks' x := by
  intro ls
  induction ls with
  | nil => intro p p' masks masks' x; rfl
  | cons l ls ih =>
    intro p p' masks masks' x
    simp only [hiddenForward, Bool.false_eq_true, if_false]
    exact ih p p' masks.tail masks'.tail _

/-- The model produced by reloading a checkpoint of `m` into a freshly
constructed model of matching dimensions: the parameters of `m` inside a
fresh module (training mode, default dropout probability). -/
def reloaded (m : Network) : Network :=
  { hidden_layers := m.hidden_layers, output := m.output, drop_p := 1 / 2,
    training := true }

theorem withParams_state_dict_self (m m' : Network) :
    m.withParams m'.state_dict
      = { m with hidden_layers := m'.hidden_layers, output := m'.output } := by
  simp only [Network.withParams, Network.state_dict, List.dropLast_concat,
    List.getLast?_concat, Option.elim_some]
  congr 1
  rw [List.map_map]
  exact List.map_id'' (fun l => rfl) _

/-- C2: saving a checkpoint from a model with hidden widths `H` and
reloading it via `load_checkpoint` into a freshly constructed model with
the same widths succeeds, reproduces identical parameter values, and
yields identical predictions on every fixed input (comparing the models
in evaluation mode, where predictions are deterministic). -/
theorem checkpoint_roundtrip (i o : ℕ) (m : Network) (ini : ParamInit)
    (hm : m.wf i o = true) (_hne : m.hidden_layers ≠ []) :
    load_checkpoint (saveCheckpoint i o m) ini = Except.ok (reloaded m) ∧
      (reloaded m).state_dict = m.state_dict ∧
      (reloaded m).evalMode.predict = m.evalMode.predict := by
  refine ⟨?_, rfl, ?_⟩
  · have hsh : sdShapes m.state_dict
        = sdShapes (Network.construct i o m.hiddenSizes ini).state_dict := by
      rw [sdShapes_wf hm, sdShapes_construct]
    have hlen : m.state_dict.length
        = (Network.construct i o m.hiddenSizes ini).state_dict.length := by
      simpa [sdShapes] using congrArg List.length hsh
    show (Network.construct i o m.hiddenSizes ini).load_state_dict
        m.state_dict = Except.ok (reloaded m)
    unfold Network.load_state_dict
    rw [if_neg (by simpa using hlen), if_neg (by simpa using hsh)]
    rw [withParams_state_dict_self]
    rfl
  · funext masks x
    simp only [Network.predict, Network.logits, Network.evalMode, reloaded]
    rw [hiddenForward_evalMode m.hidden_layers (1 / 2) m.drop_p masks masks x]

/-- Witness for C2 at the concrete model. -/
theorem checkpoint_roundtrip_witness :
    demoNet.wf 1 2 = true ∧ demoNet.hidden_layers ≠ [] ∧
      load_checkpoint (saveCheckpoint 1 2 demoNet) zeroInit
          = Except.ok (reloaded demoNet) ∧
      (reloaded demoNet).state_dict = demoNet.state_dict ∧
      (reloaded demoNet).evalMode.predict = demoNet.evalMode.predict := by
  have h := checkpoint_roundtrip 1 2 demoNet zeroInit (by decide) (by decide)
  exact ⟨by decide, by decide, h.1, h.2.1, h.2.2⟩

/-- C3: `load_checkpoint` first creates a fresh, randomly filled model
from the dimensions stored in the checkpoint record and then overwrites
every parameter with the stored values: for a shape-consistent
checkpoint the result does not depend on the fresh values at all, and its
parameters are exactly the checkpoint's stored parameter mapping. -/
theorem load_checkpoint_fresh_then_overwrite (c : Checkpoint)
    (ini ini' : ParamInit)
    (hc : sdShapes c.state_dict
      = shapesOfDims c.input_size c.output_size c.hidden_layers) :
    load_checkpoint c ini = load_checkpoint c ini' ∧
      (load_checkpoint c ini).map Network.state_dict = Except.ok c.state_dict := by
  have hne : c.state_dict ≠ [] := by
    intro hnil
    have := congrArg List.length hc
    rw [shapesOfDims_length] at this
    simp [hnil, sdShapes] at this
  obtain ⟨L, a, hsd⟩ := (List.eq_nil_or_concat c.state_dict).resolve_left hne
  have hok : ∀ j : ParamInit,
      load_checkpoint c j = Except.ok
        ((Network.construct c.input_size c.output_size c.hidden_layers
          j).withParams c.state_dict) := by
    intro j
    have hsh : sdShapes c.state_dict
        = sdShapes (Network.construct c.input_size c.output_size
          c.hidden_layers j).state_dict := by
      rw [sdShapes_construct]; exact hc
    have hlen : c.state_dict.length
        = (Network.construct c.input_size c.output_size c.hidden_layers
          j).state_dict.length := by
      simpa [sdShapes] using congrArg List.length hsh
    unfold load_checkpoint Network.load_state_dict
    rw [if_neg (by simpa using hlen), if_neg (by simpa using hsh)]
  constructor
  · rw [hok ini, hok ini']
    simp [Network.withParams, hsd, Network.construct]
  · rw [hok ini]
    simp only [Except.map, Network.withParams, hsd, Network.state_dict,
      List.map_map, List.concat_eq_append, List.dropLast_concat,
      List.getLast?_concat, Option.elim_some]
    have hmap : List.map ((fun (l : LinearLayer) => (l.weight, l.bias)) ∘
        fun (e : Entry) => ({ weight := e.1, bias := e.2 } : LinearLayer)) L
        = L := List.map_id'' (fun e => rfl) L
    rw [hmap]

/-- Witness for C3 at a concrete shape-consistent checkpoint. -/
theorem load_checkpoint_fresh_then_overwrite_witness :
    sdShapes (saveCheckpoint 1 2 demoNet).state_dict
        = shapesOfDims (saveCheckpoint 1 2 demoNet).input_size
          (saveCheckpoint 1 2 demoNet).output_size
          (saveCheckpoint 1 2 demoNet).hidden_layers ∧
      load_checkpoint (saveCheckpoint 1 2 demoNet) zeroInit
          = load_checkpoint (saveCheckpoint 1 2 demoNet)
            { w := fun _ _ _ => 7, b := fun _ _ => 7 } ∧
      (load_checkpoint (saveCheckpoint 1 2 demoNet) zeroInit).map
          Network.state_dict = Except.ok (saveCheckpoint 1 2 demoNet).state_dict := by
  have h := load_checkpoint_fresh_then_overwrite (saveCheckpoint 1 2 demoNet)
    zeroInit { w := fun _ _ _ => 7, b := fun _ _ => 7 } (by decide)
  exact ⟨by decide, h.1, h.2⟩

/-- C6: the model returned by `load_checkpoint` is left in its default
training mode with an active `Dropout(p=0.5)` layer, so two forward
passes of the freshly loaded model on the same fixed input may produce
different outputs (here: under two dropout keep-masks); predictions
become deterministic only after switching to evaluation mode. -/
theorem loaded_model_training_mode :
    load_checkpoint (saveCheckpoint 1 2 demoNet) zeroInit = Except.ok demoNet ∧
      demoNet.training = true ∧ demoNet.drop_p = 1 / 2 ∧
      Network.predict demoNet [[true]] [1]
        ≠ Network.predict demoNet [[false]] [1] ∧
      ∀ masks masks' : List (List Bool),
        Network.predict demoNet.evalMode masks [1]
          = Network.predict demoNet.evalMode masks' [1] := by
  refine ⟨?_, rfl, rfl, ?_, ?_⟩
  · rfl
  · intro h
    have e1 : Network.logits demoNet [[true]] [1] = [2, 0] := by
      norm_num [Network.logits, demoNet, demoLayer, demoOut, hiddenForward,
        reluQ, dropoutQ, LinearLayer.apply, dotQ]
    have e2 : Network.logits demoNet [[false]] [1] = [0, 0] := by
      norm_num [Network.logits, demoNet, demoLayer, demoOut, hiddenForward,
        reluQ, dropoutQ, LinearLayer.apply, dotQ]
    simp only [Network.predict, e1, e2] at h
    norm_num [logSoftmax] at h
    obtain ⟨h1, h2⟩ := h
    linarith
  · intro masks masks'
    simp only [Network.predict, Network.logits, Network.evalMode]
    rw [hiddenForward_evalMode demoNet.hidden_layers demoNet.drop_p
      demoNet.drop_p masks masks' [1]]

/-! Trace lemmas for the training loop. -/

theorem trainBatchStep_trace (fwd : Params → Batch → NetOutput)
    (crit : NetOutput → Batch → ℚ) (g : Params → Batch → Params) (lr : ℚ)
    (b : Batch) (t : Traced) :
    (trainBatchStep fwd crit g lr b t).1.trace = t.trace ++ batchTrace := by
  simp [trainBatchStep, zeroGradOp, forwardOp, lossOp, backwardOp, optStepOp,
    batchTrace]

theorem trainEpoch_trace (fwd : Params → Batch → NetOutput)
    (crit : NetOutput → Batch → ℚ) (g : Params → Batch → Params) (lr : ℚ) :
    ∀ (bs : List Batch) (t : Traced) (rl : ℚ),
      (trainEpoch fwd crit g lr bs t rl).1.trace
        = t.trace ++ (List.replicate bs.length batchTrace).flatten := by
  intro bs
  induction bs with
  | nil => intro t rl; simp [trainEpoch]
  | cons b bs ih =>
    intro t rl
    simp only [trainEpoch, List.length_cons, List.replicate_succ,
      List.flatten_cons]
    rw [ih _ _, trainBatchStep_trace]
    simp

theorem trainLoop_trace_aux (fwd : Params → Batch → NetOutput)
    (crit : NetOutput → Batch → ℚ) (g : Params → Batch → Params) (lr : ℚ) :
    ∀ (E : ℕ) (bs : List Batch) (t : Traced),
      (trainLoop fwd crit g lr E bs t).1.trace
        = t.trace ++ (List.replicate (E * bs.length) batchTrace).flatten := by
  intro E
  induction E with
  | zero => intro bs t; simp [trainLoop]
  | succ e ih =>
    intro bs t
    simp only [trainLoop]
    rw [ih bs _, trainEpoch_trace]
    rw [List.append_assoc, ← List.flatten_append, ← List.replicate_add]
    rw [Nat.succ_mul, Nat.add_comm]

/-- C4: for every mini-batch the loop performs exactly the steps
zero-gradients, forward, loss, backward, optimizer-step, in this order,
and repeats this over all mini-batches for the fixed number of epochs;
the trace depends only on the number of epochs and batches, never on the
data, so there is no custom branching, retry, or edge-case policy. -/
theorem training_loop_event_order (fwd : Params → Batch → NetOutput)
    (crit : NetOutput → Batch → ℚ) (g : Params → Batch → Params) (lr : ℚ)
    (E : ℕ) (bs : List Batch) (s : TrainState) :
    (trainLoop fwd crit g lr E bs { st := s, trace := [] }).1.trace
      = (List.replicate (E * bs.length)
          [Event.zeroGrad, Event.forwardPass, Event.lossCompute,
           Event.backwardPass, Event.optStep]).flatten := by
  rw [trainLoop_trace_aux]
  rfl

/-- C5: parameter values are mutated only by the optimizer step:
zeroing gradients, the forward computation, the loss computation and the
backward pass all leave every parameter value unchanged (the backward
pass changes only the stored gradients), the optimizer step applies
exactly the SGD update, the net effect of one batch on the parameters is
that single update computed from the fresh gradients, and checkpointing
serializes the current parameter values verbatim without modifying
them. -/
theorem parameter_mutation_frame (fwd : Params → Batch → NetOutput)
    (crit : NetOutput → Batch → ℚ) (g : Params → Batch → Params) (lr : ℚ)
    (b : Batch) (out : NetOutput) (t : Traced) (i o : ℕ) (m : Network) :
    (zeroGradOp t).st.params = t.st.params ∧
      (forwardOp fwd b t).2.st = t.st ∧
      (lossOp crit out b t).2.st = t.st ∧
      (backwardOp g b t).st.params = t.st.params ∧
      (optStepOp lr t).st.params = sgdUpdate lr t.st.params t.st.grads ∧
      (trainBatchStep fwd crit g lr b t).1.st.params
        = sgdUpdate lr t.st.params
            (paramsAdd (zerosLike t.st.params) (g t.st.params b)) ∧
      (saveCheckpoint i o m).state_dict = m.state_dict :=
  ⟨rfl, rfl, rfl, rfl, rfl, rfl, rfl⟩

/-! Accuracy-accumulation lemmas. -/

theorem batchMean_sum_const (k : ℕ) :
    ∀ (eqs : List (List Bool)), (∀ e ∈ eqs, e.length = k) →
      (eqs.map batchMean).sum
        = ((eqs.map (fun e => ((e.count true : ℕ) : ℚ))).sum) / k := by
  intro eqs
  induction eqs with
  | nil => simp
  | cons e es ih =>
    intro h
    simp only [List.map_cons, List.sum_cons]
    rw [ih (fun x hx => h x (List.mem_cons_of_mem _ hx))]
    simp only [batchMean, h e (List.mem_cons_self _ _)]
    rw [div_add_div_same]

theorem lengths_sum_const (k : ℕ) :
    ∀ (eqs : List (List Bool)), (∀ e ∈ eqs, e.length = k) →
      (eqs.map (fun e => ((e.length : ℕ) : ℚ))).sum = (k : ℚ) * eqs.length := by
  intro eqs
  induction eqs with
  | nil => simp
  | cons e es ih =>
    intro h
    simp only [List.map_cons, List.sum_cons, List.length_cons]
    rw [ih (fun x hx => h x (List.mem_cons_of_mem _ hx)),
      h e (List.mem_cons_self _ _)]
    push_cast
    ring

/-- C8: the test accuracy reported each epoch is the unweighted mean of
per-batch accuracies: whenever every batch has the same size the figure
agrees with the true fraction of correctly classified images, but on the
Fashion-MNIST split (10000 images in batches of 64, so 156 full batches
plus a final batch of 16) there are correctness outcomes on which the
reported figure differs from that fraction. -/
theorem reported_accuracy_batch_mean (k : ℕ) (eqs : List (List Bool))
    (hk : ∀ e ∈ eqs, e.length = k) :
    reportedTestAccuracy eqs = overallTestAccuracy eqs ∧
      unevenProfile.length = 157 ∧
      (unevenProfile.map (fun e => e.length)).sum = 10000 ∧
      reportedTestAccuracy unevenProfile ≠ overallTestAccuracy unevenProfile := by
  refine ⟨?_, by simp [unevenProfile], by simp [unevenProfile], ?_⟩
  · unfold reportedTestAccuracy overallTestAccuracy
    rw [batchMean_sum_const k eqs hk, lengths_sum_const k eqs hk]
    rw [div_mul_eq_mul_div, div_div]
  · have hrep : reportedTestAccuracy unevenProfile = 15600 / 157 := by
      simp only [reportedTestAccuracy, unevenProfile, batchMean,
        List.map_append, List.map_replicate, List.map_cons, List.map_nil,
        List.sum_append, List.sum_replicate, List.sum_cons, List.sum_nil,
        List.count_replicate_self, List.count_replicate,
        List.length_replicate, List.length_append, List.length_cons,
        List.length_nil, smul_eq_mul, nsmul_eq_mul]
      norm_num
    have hov : overallTestAccuracy unevenProfile = 9984 / 100 := by
      simp only [overallTestAccuracy, unevenProfile, List.map_append,
        List.map_replicate, List.map_cons, List.map_nil, List.sum_append,
        List.sum_replicate, List.sum_cons, List.sum_nil,
        List.count_replicate_self, List.count_replicate,
        List.length_replicate, smul_eq_mul, nsmul_eq_mul]
      norm_num
    rw [hrep, hov]
    norm_num

/-- Witness for C8 at a concrete pair of equal-sized batches. -/
theorem reported_accuracy_batch_mean_witness :
    (∀ e ∈ [[true], [false]], e.length = 1) ∧
      (reportedTestAccuracy [[true], [false]]
          = overallTestAccuracy [[true], [false]] ∧
        unevenProfile.length = 157 ∧
        (unevenProfile.map (fun e => e.length)).sum = 10000 ∧
        reportedTestAccuracy unevenProfile
          ≠ overallTestAccuracy unevenProfile) :=
  ⟨by decide, reported_accuracy_batch_mean 1 [[true], [false]] (by decide)⟩

/-! Device-selection lemmas. -/

theorem trainEpochDevice_cuda_ok (fwd : Params → Batch → NetOutput)
    (crit : NetOutput → Batch → ℚ) (g : Params → Batch → Params) (lr : ℚ) :
    ∀ (bs : List Batch) (t : Traced),
      (trainEpochDevice fwd crit g lr true bs t).isOk = true := by
  intro bs
  induction bs with
  | nil => intro t; rfl
  | cons b bs ih =>
    intro t
    simp only [trainEpochDevice, tensorToCuda, if_true]
    exact ih _

/-- C9: although the compute device is selected with a CPU fallback when
CUDA is unavailable, the loop moves every batch with unconditional
`.cuda()` calls, so without CUDA the epoch raises an error on the first
mini-batch (whatever the data) instead of running on the CPU, while with
CUDA available the same loop runs to completion. -/
theorem cuda_error_despite_cpu_fallback (fwd : Params → Batch → NetOutput)
    (crit : NetOutput → Batch → ℚ) (g : Params → Batch → Params) (lr : ℚ)
    (b : Batch) (bs : List Batch) (t : Traced) :
    selectDevice false = Device.cpu ∧
      trainEpochDevice fwd crit g lr false (b :: bs) t
        = Except.error "Torch not compiled with CUDA enabled" ∧
      (trainEpochDevice fwd crit g lr true (b :: bs) t).isOk = true :=
  ⟨rfl, rfl, trainEpochDevice_cuda_ok fwd crit g lr (b :: bs) t⟩

end DLV2
